import Mathlib

set_option maxRecDepth 8192

/-!
Verification of the road-network graph pipeline.

The repository has two source files:

* `scripts/parse_data.py` — the Edge-List Loader: reads a DIMACS-style text
  file (`header; nodeCount coordinate lines; edge lines`), builds a vertex
  dictionary and an edge list, and exports `intersections.csv` and
  `roads.csv` (with a Euclidean distance per edge, rounded to 2 decimals).
* `scripts/dashboard.py` — the Metrics Engine: Cypher queries over the
  loaded store computing per-node degree, the degree histogram, the top-10
  most connected nodes, category counts, and scalar summary statistics.

Python exceptions (`IndexError`, `ValueError`, `KeyError`,
`ZeroDivisionError`) abort the scripts; they are modelled by `Except` /
`Option` error values.  Floating-point values produced by `math.sqrt`,
`round(·, k)` and Python's `/` are modelled by exact-real arithmetic,
realised as integer computations on fixed-point values (hundredths or
tenths) with round-half-to-even; for the inputs appearing in the spec's
scenarios the float and exact-real results coincide.
-/

namespace RoadNet

instance {ε α : Type} [DecidableEq ε] [DecidableEq α] : DecidableEq (Except ε α) := fun x y =>
  match x, y with
  | .ok a, .ok b =>
      if h : a = b then .isTrue (congrArg Except.ok h)
      else .isFalse (fun hh => h (Except.ok.inj hh))
  | .error a, .error b =>
      if h : a = b then .isTrue (congrArg Except.error h)
      else .isFalse (fun hh => h (Except.error.inj hh))
  | .ok _, .error _ => .isFalse (fun hh => Except.noConfusion hh)
  | .error _, .ok _ => .isFalse (fun hh => Except.noConfusion hh)

/-- Python runtime errors raised by `parse_data.py`.  An uncaught exception
aborts the load, so these are the loader's failure modes. -/
inductive PyError where
  | indexError
  | valueError
  | keyError
deriving DecidableEq, Repr

/-- Python `lst[i]` for a non-negative index: `IndexError` when out of range. -/
def pyIndex {α : Type} (l : List α) (i : Nat) : Except PyError α :=
  match l.get? i with
  | some a => .ok a
  | none => .error .indexError

/-- Value of a non-empty all-digit character list, `none` otherwise. -/
def digitsVal (cs : List Char) : Option Nat :=
  if cs = [] then none
  else cs.foldl
    (fun acc c => acc.bind
      (fun n => if c.isDigit then some (10 * n + (c.toNat - '0'.toNat)) else none))
    (some 0)

/-- Integer value of a string: optional sign followed by digits.  Models the
accepting core of Python `int(str)` (surrounding whitespace has already been
removed by the whitespace split used at every call site). -/
def strToInt? (s : String) : Option Int :=
  match s.data with
  | '-' :: cs => (digitsVal cs).map (fun n => -(n : Int))
  | '+' :: cs => (digitsVal cs).map (fun n => (n : Int))
  | cs => (digitsVal cs).map (fun n => (n : Int))

/-- Python `int(s)`: `ValueError` when `s` is not an integer literal. -/
def pyInt (s : String) : Except PyError Int :=
  match strToInt? s with
  | some n => .ok n
  | none => .error .valueError

/-- Python `s.strip().split()`: split on whitespace runs, no empty fields. -/
def pySplit (s : String) : List String :=
  ((s.data.splitOnP (fun c => c.isWhitespace)).map (fun cs => String.mk cs)).filter
    (fun t => t ≠ "")

/-- Header parse (`parse_data.py` lines 16-18): read line 0, take
`int(parts[0])` and `int(parts[1])` as vertex and edge counts. -/
def parseHeader (lines : List String) : Except PyError (Int × Int) :=
  match lines.head? with
  | none => .error .indexError
  | some l0 =>
    let parts := pySplit l0
    match pyIndex parts 0 with
    | .error e => .error e
    | .ok s0 =>
      match pyInt s0 with
      | .error e => .error e
      | .ok nv =>
        match pyIndex parts 1 with
        | .error e => .error e
        | .ok s1 =>
          match pyInt s1 with
          | .error e => .error e
          | .ok ne => .ok (nv, ne)

/-- One coordinate record (`parse_data.py` lines 28-31):
`vertex_id = int(parts[0]); x = int(parts[1]); y = int(parts[2])`. -/
def parseVertexLine (s : String) : Except PyError (Int × Int × Int) :=
  let parts := pySplit s
  match pyIndex parts 0 with
  | .error e => .error e
  | .ok s0 =>
    match pyInt s0 with
    | .error e => .error e
    | .ok vid =>
      match pyIndex parts 1 with
      | .error e => .error e
      | .ok s1 =>
        match pyInt s1 with
        | .error e => .error e
        | .ok x =>
          match pyIndex parts 2 with
          | .error e => .error e
          | .ok s2 =>
            match pyInt s2 with
            | .error e => .error e
            | .ok y => .ok (vid, x, y)

/-- The vertex loop (`parse_data.py` lines 27-32): read `n` records starting
at line index `i` (the Python loop runs `i` from `1` to `num_vertices`). -/
def readVertexRecords (lines : List String) : Nat → Nat → Except PyError (List (Int × Int × Int))
  | _, 0 => .ok []
  | i, n + 1 =>
    match pyIndex lines i with
    | .error e => .error e
    | .ok l =>
      match parseVertexLine l with
      | .error e => .error e
      | .ok r =>
        match readVertexRecords lines (i + 1) n with
        | .error e => .error e
        | .ok rs => .ok (r :: rs)

/-- Python dict assignment `vertices[vertex_id] = (x, y)`: a repeated id
updates the existing entry in place (keeping first-insertion order), a new
id is appended at the end. -/
def insertVertex : List (Int × Int × Int) → Int → Int → Int → List (Int × Int × Int)
  | [], vid, x, y => [(vid, x, y)]
  | v :: vs, vid, x, y =>
    if v.1 == vid then (vid, x, y) :: vs else v :: insertVertex vs vid x y

/-- The `vertices` dict built from the parsed coordinate records in order. -/
def buildVerts (rs : List (Int × Int × Int)) : List (Int × Int × Int) :=
  rs.foldl (fun vs r => insertVertex vs r.1 r.2.1 r.2.2) []

/-- One edge-section line (`parse_data.py` lines 39-43): lines with fewer
than two whitespace-separated fields are skipped silently (`none`); on a
kept line both leading fields must parse as integers; any further fields
are ignored. -/
def parseEdgeLine (s : String) : Except PyError (Option (Int × Int)) :=
  let parts := pySplit s
  if 2 ≤ parts.length then
    match pyIndex parts 0 with
    | .error e => .error e
    | .ok s0 =>
      match pyInt s0 with
      | .error e => .error e
      | .ok src =>
        match pyIndex parts 1 with
        | .error e => .error e
        | .ok s1 =>
          match pyInt s1 with
          | .error e => .error e
          | .ok tgt => .ok (some (src, tgt))
  else .ok none

/-- The edge loop (`parse_data.py` lines 38-43) over the post-vertex lines,
appending parsed `(source, target)` pairs in input order. -/
def readEdges : List String → Except PyError (List (Int × Int))
  | [] => .ok []
  | l :: ls =>
    match parseEdgeLine l with
    | .error e => .error e
    | .ok o =>
      match readEdges ls with
      | .error e => .error e
      | .ok rest => .ok (match o with | some p => p :: rest | none => rest)

/-- Outcome of a successful load: the `vertices` dict (as an
insertion-ordered association list) and the edge list. -/
structure ParseResult where
  vertices : List (Int × Int × Int)
  edges : List (Int × Int)
deriving DecidableEq, Repr

/-- `parse_data.py`'s parsing phase: header, then `num_vertices` coordinate
records (Python indices `1 … num_vertices`), then the remaining lines as
edge records.  `num_edges` is read (a bad field aborts) but never used to
check the edge section.  The CSV exports happen strictly after this phase,
so an error here hands nothing downstream.  A negative header vertex count
(whose Python behaviour would involve negative line indexing) is modelled
as zero iterations; no claim in scope exercises it. -/
def parse_data (lines : List String) : Except PyError ParseResult :=
  match parseHeader lines with
  | .error e => .error e
  | .ok (nv, _ne) =>
    match readVertexRecords lines 1 nv.toNat with
    | .error e => .error e
    | .ok rs =>
      match readEdges (lines.drop (nv.toNat + 1)) with
      | .error e => .error e
      | .ok es => .ok ⟨buildVerts rs, es⟩

/-- First entry of the vertex table with the given id (the table built by
`buildVerts` has unique ids, so this is the row exported for that id). -/
def findVert (vs : List (Int × Int × Int)) (vid : Int) : Option (Int × Int × Int) :=
  vs.find? (fun v => v.1 == vid)

/-- Last coordinate record naming `vid` in the raw record list. -/
def lastEntry (rs : List (Int × Int × Int)) (vid : Int) : Option (Int × Int × Int) :=
  (rs.filter (fun r => r.1 == vid)).getLast?

/-- Python `vertices[key]` lookup: `KeyError` when the id is absent. -/
def pyLookup (vs : List (Int × Int × Int)) (vid : Int) : Except PyError (Int × Int) :=
  match findVert vs vid with
  | some v => .ok (v.2.1, v.2.2)
  | none => .error .keyError

/-- Largest `c` with `c * c ≤ n`, reached by counting up; the fuel bound
`n` always suffices since `⌊√n⌋ ≤ n`. -/
def intSqrtGo (n : Nat) : Nat → Nat → Nat
  | 0, c => c
  | fuel + 1, c => if (c + 1) * (c + 1) ≤ n then intSqrtGo n fuel (c + 1) else c

/-- Integer square root `⌊√n⌋`. -/
def intSqrt (n : Nat) : Nat :=
  intSqrtGo n n 0

/-- Euclidean distance between two integer points, rounded to 2 decimal
places, in hundredths (`parse_data.py` lines 64-67).  This is the exact-real
value `round(100 · sqrt(dx² + dy²))`: the nearest integer to `100·√d2`
(an exact half is impossible, since it would force `√d2` rational and hence
integral).  It models `round(math.sqrt(...), 2)`, whose float result agrees
on the spec's scenario values. -/
def dist100 (p q : Int × Int) : Nat :=
  let d2 : Nat := ((q.1 - p.1) ^ 2 + (q.2 - p.2) ^ 2).toNat
  let n := intSqrt (d2 * 10000)
  if n * n + n < d2 * 10000 then n + 1 else n

/-- Rows of `roads.csv` (`parse_data.py` lines 60-68): one row per parsed
edge, in order, as `(source, target, distance-in-hundredths)`; an endpoint
missing from the vertex dict raises `KeyError`. -/
def roadRows (vs : List (Int × Int × Int)) : List (Int × Int) → Except PyError (List (Int × Int × Nat))
  | [] => .ok []
  | (s, t) :: es =>
    match pyLookup vs s with
    | .error e => .error e
    | .ok p1 =>
      match pyLookup vs t with
      | .error e => .error e
      | .ok p2 =>
        match roadRows vs es with
        | .error e => .error e
        | .ok rest => .ok ((s, t, dist100 p1 p2) :: rest)

/-- The loaded graph store: node ids from the exported vertex table, stored
relationships from the exported edge table (storage direction preserved). -/
structure Graph where
  nodes : List Int
  edges : List (Int × Int)
deriving DecidableEq, Repr

/-- The graph the store holds after importing the two CSV exports. -/
def graphOfResult (pr : ParseResult) : Graph :=
  ⟨pr.vertices.map (fun v => v.1), pr.edges⟩

/-- Degree of node `i` — the Cypher subquery `COUNT { (i)-[:ROAD]-() }`
(`dashboard.py` lines 41, 50, 60).  An undirected relationship pattern
matches each stored relationship incident to `i` exactly once, regardless
of direction; in particular a self-loop relationship matches once, and
parallel relationships count separately. -/
def degree (g : Graph) (i : Int) : Nat :=
  g.edges.countP (fun e => e.1 == i || e.2 == i)

/-- Sum of the per-node degrees over the whole store. -/
def sumDegrees (g : Graph) : Nat :=
  (g.nodes.map (degree g)).sum

/-- Nearest integer to the real quotient `a / b` (for `b > 0`), ties to
even — the exact-value behaviour of Python's `round`. -/
def roundHalfEvenAt (a b : Int) : Int :=
  let q := Int.fdiv a b
  let r := a - q * b
  if 2 * r < b then q
  else if b < 2 * r then q + 1
  else if q % 2 = 0 then q else q + 1

/-- `avg_degree = round((2 * total_roads) / total_intersections, 2)`
(`dashboard.py` line 33), held in hundredths: the result `n` stands for
the two-decimal value `n / 100`.  Python raises `ZeroDivisionError` when
the store has no nodes; the raised error is modelled by `none`. -/
def avg_degree (roads nodes : Nat) : Option Int :=
  if nodes = 0 then none
  else some (roundHalfEvenAt (200 * roads) nodes)

/-- The degree histogram — `degree_query` (`dashboard.py` lines 39-44):
group the nodes by degree, return `(degree, count)` rows ordered by
ascending degree.  The degree values are pairwise distinct, so `ORDER BY
degree` determines the row order completely. -/
def degreeHistogram (g : Graph) : List (Nat × Nat) :=
  let ds := g.nodes.map (degree g)
  (List.insertionSort (fun a b => a ≤ b) ds.dedup).map (fun d => (d, ds.count d))

/-- The `(node id, degree)` rows produced before ranking (`dashboard.py`
lines 48-51). -/
def nodeDegreePairs (g : Graph) : List (Int × Nat) :=
  g.nodes.map (fun i => (i, degree g i))

/-- Valid outputs of `top10_query` (`dashboard.py` lines 48-54):
`ORDER BY degree DESC LIMIT 10` sorts the `(id, degree)` rows by degree
descending — the engine gives no guarantee about the relative order of
equal-degree rows — and keeps the first 10.  Any list obtained from some
degree-descending arrangement of the rows is a possible query result. -/
def IsTop10Result (g : Graph) (res : List (Int × Nat)) : Prop :=
  ∃ l : List (Int × Nat),
    l.Perm (nodeDegreePairs g) ∧
    l.Sorted (fun a b => b.2 ≤ a.2) ∧
    res = l.take 10

/-- Failure of the ranking query at the store boundary. -/
inductive QueryError where
  | invalidLimit
deriving DecidableEq, Repr

/-- The ranking query with its `LIMIT` value exposed as a parameter `k`
(the source pins `k = 10`; the spec's Top-K Ranker makes `K` a parameter,
default 10).  Cypher rejects a negative `LIMIT` with an invalid-argument
error and accepts `LIMIT 0`, returning no rows.  A fixed representative
order (insertion sort, stable) stands in for the engine's unspecified
tie order; the properties stated about `topK` do not depend on it. -/
def topK (k : Int) (g : Graph) : Except QueryError (List (Int × Nat)) :=
  if k < 0 then .error .invalidLimit
  else .ok ((List.insertionSort (fun a b : Int × Nat => b.2 ≤ a.2) (nodeDegreePairs g)).take k.toNat)

/-- The query as written in the source: `LIMIT 10`. -/
def top10 (g : Graph) : Except QueryError (List (Int × Nat)) :=
  topK 10 g

/-- The `CASE` expression of `categories_query` (`dashboard.py` lines
62-68): degrees 1-4 get their dedicated labels and every other degree —
including 0 — falls through to the `ELSE` branch. -/
def category (d : Nat) : String :=
  if d = 1 then "Dead End (1 road)"
  else if d = 2 then "Pass Through (2 roads)"
  else if d = 3 then "T-Junction (3 roads)"
  else if d = 4 then "Crossroad (4 roads)"
  else "Major Hub (5+ roads)"

/-- `categories_query` (`dashboard.py` lines 58-71): classify every node,
group by label, return `(label, count)` rows ordered by descending count
(representative order among equal counts). -/
def categoryCounts (g : Graph) : List (String × Nat) :=
  let cats := g.nodes.map (fun i => category (degree g i))
  List.insertionSort (fun a b : String × Nat => b.2 ≤ a.2)
    (cats.dedup.map (fun c => (c, cats.count c)))

/-- `most_common_pct` (`dashboard.py` lines 163-164):
`round(categories_df['count'].max() / total_intersections * 100, 1)`,
held in tenths of a percent: the result `n` stands for `n / 10` percent.
With zero nodes the categories query returns no rows, and indexing the
empty data frame raises `KeyError` — modelled by `none`. -/
def most_common_pct (g : Graph) : Option Int :=
  match (categoryCounts g).map (fun r => r.2) with
  | [] => none
  | c :: cs =>
    some (roundHalfEvenAt ((cs.foldl Nat.max c : Nat) * 1000) g.nodes.length)

/-- `degree_df["degree"].max()` (`dashboard.py` line 170): the maximum
degree in the histogram; with zero nodes the histogram data frame is empty
and the column access raises `KeyError` — modelled by `none`. -/
def maxDegreeStat (g : Graph) : Option Nat :=
  match (degreeHistogram g).map (fun r => r.1) with
  | [] => none
  | d :: ds => some (ds.foldl Nat.max d)

/-- The `(source, target)` pair the edge loop extracts from a kept line
(one with at least two fields): the integer values of fields 0 and 1 (the
`getD` defaults are never hit on a kept line of a successful run). -/
def keptEdgeOf (l : String) : Int × Int :=
  ((strToInt? (((pySplit l).get? 0).getD "")).getD 0,
   (strToInt? (((pySplit l).get? 1).getD "")).getD 0)

/-! ## General helper lemmas -/

lemma sum_map_add_nat {α : Type} (l : List α) (f g : α → Nat) :
    (l.map (fun x => f x + g x)).sum = (l.map f).sum + (l.map g).sum := by
  induction l with
  | nil => rfl
  | cons a l ih => simp [ih]; omega

lemma sum_ite_eq_countP {α : Type} (l : List α) (p : α → Bool) :
    (l.map (fun x => if p x then 1 else 0)).sum = l.countP p := by
  induction l with
  | nil => rfl
  | cons a l ih =>
    by_cases h : p a
    · simp [List.countP_cons, h, ih]
      omega
    · simp [List.countP_cons, h, ih]

lemma countP_beq_or (a b : Int) (hab : a ≠ b) (l : List Int) :
    l.countP (fun i => a == i || b == i) = l.count a + l.count b := by
  induction l with
  | nil => rfl
  | cons x l ih =>
    rw [List.countP_cons, List.count_cons, List.count_cons, ih]
    have hba : ¬ b = a := fun h => hab h.symm
    by_cases hxa : x = a
    · simp [hxa, hab, hba, beq_iff_eq]
      omega
    · by_cases hxb : x = b
      · simp [hxb, hab, hba, beq_iff_eq]
        omega
      · have h1 : ¬ a = x := fun h => hxa h.symm
        have h2 : ¬ b = x := fun h => hxb h.symm
        simp [hxa, hxb, h1, h2, beq_iff_eq]

lemma sum_degrees_core (nodes : List Int) (edges : List (Int × Int))
    (hnd : nodes.Nodup)
    (hm : ∀ e ∈ edges, e.1 ∈ nodes ∧ e.2 ∈ nodes)
    (hl : ∀ e ∈ edges, e.1 ≠ e.2) :
    (nodes.map (fun i => edges.countP (fun e => e.1 == i || e.2 == i))).sum
      = 2 * edges.length := by
  induction edges with
  | nil => simp
  | cons e es ih =>
    have hm' : ∀ x ∈ es, x.1 ∈ nodes ∧ x.2 ∈ nodes :=
      fun x hx => hm x (List.mem_cons_of_mem _ hx)
    have hl' : ∀ x ∈ es, x.1 ≠ x.2 := fun x hx => hl x (List.mem_cons_of_mem _ hx)
    simp only [List.countP_cons]
    rw [sum_map_add_nat, ih hm' hl', sum_ite_eq_countP,
      countP_beq_or e.1 e.2 (hl e (List.mem_cons_self e es)) nodes,
      List.count_eq_one_of_mem hnd (hm e (List.mem_cons_self e es)).1,
      List.count_eq_one_of_mem hnd (hm e (List.mem_cons_self e es)).2,
      List.length_cons]
    omega

/-! ## Claim C1 — degree-sum invariant -/

/-- Claim C1 (corrected): for a loaded graph whose node ids are distinct,
whose edges reference loaded nodes, and which contains no self-loop edge,
the per-node degrees computed by the metrics queries sum to twice the edge
count.  (The original claim, quantified over all loaded graphs, fails on
self-loops: the undirected Cypher pattern counts a self-loop relationship
once, not twice — see `selfLoop_breaks_degree_sum`.) -/
theorem degree_sum_eq_two_mul_edges (g : Graph)
    (hnd : g.nodes.Nodup)
    (hm : ∀ e ∈ g.edges, e.1 ∈ g.nodes ∧ e.2 ∈ g.nodes)
    (hl : ∀ e ∈ g.edges, e.1 ≠ e.2) :
    sumDegrees g = 2 * g.edges.length := by
  have h := sum_degrees_core g.nodes g.edges hnd hm hl
  simpa [sumDegrees, degree] using h

/-- Concrete instance of `degree_sum_eq_two_mul_edges` on the path graph
1—2—3: degree sum 4 = 2 · 2. -/
theorem degree_sum_eq_two_mul_edges_witness :
    sumDegrees ⟨[1, 2, 3], [(1, 2), (2, 3)]⟩
      = 2 * (Graph.mk [1, 2, 3] [(1, 2), (2, 3)]).edges.length :=
  degree_sum_eq_two_mul_edges ⟨[1, 2, 3], [(1, 2), (2, 3)]⟩ (by decide) (by decide) (by decide)

/-- Counterexample to claim C1 as stated: the loadable graph with one node
and one self-loop edge has degree sum 1, not 2 · edgeCount = 2 — the
undirected relationship pattern matches the loop once. -/
theorem selfLoop_breaks_degree_sum :
    (Graph.mk [1] [(1, 1)]).nodes.Nodup ∧
    ((1 : Int), (1 : Int)) ∈ (Graph.mk [1] [(1, 1)]).edges ∧
    (1 : Int) ∈ (Graph.mk [1] [(1, 1)]).nodes ∧
    sumDegrees ⟨[1], [(1, 1)]⟩ ≠ 2 * (Graph.mk [1] [(1, 1)]).edges.length := by
  refine ⟨by decide, by decide, by decide, by decide⟩

/-! ## Claim C2 — category classifier -/

lemma categoryCounts_sum (g : Graph) :
    ((categoryCounts g).map (fun p => p.2)).sum = g.nodes.length := by
  simp only [categoryCounts]
  set cats := g.nodes.map (fun i => category (degree g i)) with hcats
  have hperm :
      ((List.insertionSort (fun a b : String × Nat => b.2 ≤ a.2)
          (cats.dedup.map (fun c => (c, cats.count c)))).map (fun p : String × Nat => p.2)).Perm
        ((cats.dedup.map (fun c => (c, cats.count c))).map (fun p : String × Nat => p.2)) :=
    (List.perm_insertionSort _ _).map _
  rw [hperm.sum_eq, List.map_map]
  have hcomp : ((fun p : String × Nat => p.2) ∘ fun c => (c, cats.count c))
      = fun c => cats.count c := rfl
  rw [hcomp, List.sum_map_count_dedup_eq_length, hcats, List.length_map]

/-- Claim C2 (corrected): the classifier maps degree 1 to Dead End, 2 to
Pass Through, 3 to T-Junction, 4 to Crossroad, and every other degree —
degree ≥ 5 but also degree 0 — to Major Hub via the `CASE … ELSE` branch,
and the per-category counts always total the node count.  (The original
claim said a degree-0 node is left outside every named bucket; the code's
`ELSE` branch puts it in Major Hub — see `degree_zero_gets_major_hub`.) -/
theorem category_table_counts (g : Graph) (d : Nat) :
    category 1 = "Dead End (1 road)" ∧
    category 2 = "Pass Through (2 roads)" ∧
    category 3 = "T-Junction (3 roads)" ∧
    category 4 = "Crossroad (4 roads)" ∧
    (5 ≤ d → category d = "Major Hub (5+ roads)") ∧
    category 0 = "Major Hub (5+ roads)" ∧
    ((categoryCounts g).map (fun p => p.2)).sum = g.nodes.length := by
  refine ⟨rfl, rfl, rfl, rfl, fun h5 => ?_, rfl, categoryCounts_sum g⟩
  unfold category
  rw [if_neg (by omega), if_neg (by omega), if_neg (by omega), if_neg (by omega)]

/-- Concrete instance of `category_table_counts`: degree 7 is classified
Major Hub. -/
theorem category_table_counts_witness :
    category 7 = "Major Hub (5+ roads)" :=
  (category_table_counts ⟨[], []⟩ 7).2.2.2.2.1 (by omega)

/-- Counterexample to claim C2 as stated: a single isolated node has degree
0, yet the aggregated counts place it in the named Major Hub bucket rather
than leaving it outside every bucket. -/
theorem degree_zero_gets_major_hub :
    degree ⟨[1], []⟩ 1 = 0 ∧
    categoryCounts ⟨[1], []⟩ = [("Major Hub (5+ roads)", 1)] := by
  refine ⟨by decide, by decide⟩

/-! ## Claim C3 — degree histogram -/

/-- Claim C3 (confirmed): for every loaded graph the histogram has pairwise
distinct degree keys, is ordered by ascending degree (hence, being a pure
function of its input, identical runs give identical ordered output), and
its counts sum to the total node count — degree-0 nodes included, since
every node row enters the grouping. -/
theorem histogram_keys_sorted_sum (g : Graph) :
    ((degreeHistogram g).map (fun p => p.1)).Nodup ∧
    ((degreeHistogram g).map (fun p => p.1)).Sorted (fun a b => a ≤ b) ∧
    ((degreeHistogram g).map (fun p => p.2)).sum = g.nodes.length := by
  simp only [degreeHistogram]
  set ds := g.nodes.map (degree g) with hds
  have hkeys : ((List.insertionSort (fun a b : Nat => a ≤ b) ds.dedup).map
        (fun d => (d, ds.count d))).map (fun p : Nat × Nat => p.1)
      = List.insertionSort (fun a b : Nat => a ≤ b) ds.dedup := by
    rw [List.map_map]
    have hcomp : ((fun p : Nat × Nat => p.1) ∘ fun d => (d, ds.count d)) = fun d => d := rfl
    rw [hcomp, List.map_id']
  refine ⟨?_, ?_, ?_⟩
  · rw [hkeys]
    exact ((List.perm_insertionSort _ _).nodup_iff).mpr ds.nodup_dedup
  · rw [hkeys]
    exact List.sorted_insertionSort _ _
  · have hperm :
        ((List.insertionSort (fun a b : Nat => a ≤ b) ds.dedup).map
            (fun d => (d, ds.count d))).map (fun p : Nat × Nat => p.2)
          |>.Perm ((ds.dedup.map (fun d => (d, ds.count d))).map (fun p : Nat × Nat => p.2)) :=
      ((List.perm_insertionSort _ _).map _).map _
    rw [hperm.sum_eq, List.map_map]
    have hcomp : ((fun p : Nat × Nat => p.2) ∘ fun d => (d, ds.count d))
        = fun d => ds.count d := rfl
    rw [hcomp, List.sum_map_count_dedup_eq_length, hds, List.length_map]

/-! ## Claim C4 — top-10 ranking -/

/-- Claim C4 (corrected): any result the ranking query can return is sorted
descending by degree, has length `min 10 nodeCount`, draws its rows from
the graph's `(id, degree)` pairs, and every omitted node's degree is at
most every shown degree.  (The original claim further required ties broken
by ascending node id and a deterministic result; `ORDER BY degree DESC`
alone guarantees neither — see `top10_tie_nondeterminism`.) -/
theorem top10_result_props (g : Graph) (res : List (Int × Nat))
    (h : IsTop10Result g res) :
    res.Sorted (fun a b : Int × Nat => b.2 ≤ a.2) ∧
    res.length = min 10 g.nodes.length ∧
    (∀ p ∈ res, p ∈ nodeDegreePairs g) ∧
    (∀ q ∈ nodeDegreePairs g, q ∉ res → ∀ p ∈ res, q.2 ≤ p.2) := by
  obtain ⟨l, hperm, hsort, hres⟩ := h
  have hlen : l.length = g.nodes.length := by
    rw [hperm.length_eq]
    simp [nodeDegreePairs]
  subst hres
  refine ⟨?_, ?_, ?_, ?_⟩
  · exact hsort.sublist (List.take_sublist 10 l)
  · rw [List.length_take, hlen]
  · intro p hp
    exact hperm.subset (List.take_subset 10 l hp)
  · intro q hq hqnot p hp
    have hql : q ∈ l := hperm.mem_iff.mpr hq
    have hsplit : q ∈ List.take 10 l ++ List.drop 10 l := by
      rw [List.take_append_drop]
      exact hql
    have hqdrop : q ∈ List.drop 10 l := by
      rcases List.mem_append.mp hsplit with h1 | h2
      · exact absurd h1 hqnot
      · exact h2
    have hpair : List.Pairwise (fun a b : Int × Nat => b.2 ≤ a.2)
        (List.take 10 l ++ List.drop 10 l) := by
      rw [List.take_append_drop]
      exact hsort
    exact (List.pairwise_append.mp hpair).2.2 p hp q hqdrop

/-- Concrete instance of `top10_result_props` for the single-node graph and
its unique valid result. -/
theorem top10_result_props_witness :
    ([((1 : Int), (0 : Nat))]).Sorted (fun a b : Int × Nat => b.2 ≤ a.2) ∧
    ([((1 : Int), (0 : Nat))]).length = min 10 (Graph.mk [1] []).nodes.length ∧
    (∀ p ∈ [((1 : Int), (0 : Nat))], p ∈ nodeDegreePairs ⟨[1], []⟩) ∧
    (∀ q ∈ nodeDegreePairs ⟨[1], []⟩, q ∉ [((1 : Int), (0 : Nat))] →
      ∀ p ∈ [((1 : Int), (0 : Nat))], q.2 ≤ p.2) :=
  top10_result_props ⟨[1], []⟩ [(1, 0)] ⟨[(1, 0)], by decide, by decide, rfl⟩

/-- Counterexample to claim C4 as stated: on the two-node edgeless graph
both orders of the equal-degree rows are valid query results, so the result
is not deterministic, and one of them violates the claimed
degree-descending, id-ascending tie order. -/
theorem top10_tie_nondeterminism :
    IsTop10Result ⟨[1, 2], []⟩ [(1, 0), (2, 0)] ∧
    IsTop10Result ⟨[1, 2], []⟩ [(2, 0), (1, 0)] ∧
    ([((1 : Int), (0 : Nat)), (2, 0)] ≠ [((2 : Int), (0 : Nat)), (1, 0)]) ∧
    ¬ List.Pairwise (fun a b : Int × Nat => b.2 < a.2 ∨ (a.2 = b.2 ∧ a.1 < b.1))
        [((2 : Int), (0 : Nat)), (1, 0)] := by
  refine ⟨⟨[(1, 0), (2, 0)], by decide, by decide, rfl⟩,
    ⟨[(2, 0), (1, 0)], by decide, by decide, rfl⟩, by decide, by decide⟩

/-! ## Claim C5 — Scenario A -/

/-- Claim C5 (confirmed): on the input `3 2 / 1 0 0 / 2 3 0 / 3 3 4 / 1 2 /
2 3` the pipeline parses three vertices and two edges, node 1 has degree 1,
node 2 degree 2, node 3 degree 1, the exported edge rows carry distances
3.00 and 4.00 (300 and 400 hundredths), the histogram is `{1: 2, 2: 1}`,
and the average degree rounds to 1.33 (133 hundredths). -/
theorem scenarioA_pipeline :
    parse_data ["3 2", "1 0 0", "2 3 0", "3 3 4", "1 2", "2 3"] =
      .ok ⟨[(1, 0, 0), (2, 3, 0), (3, 3, 4)], [(1, 2), (2, 3)]⟩ ∧
    degree (graphOfResult ⟨[(1, 0, 0), (2, 3, 0), (3, 3, 4)], [(1, 2), (2, 3)]⟩) 1 = 1 ∧
    degree (graphOfResult ⟨[(1, 0, 0), (2, 3, 0), (3, 3, 4)], [(1, 2), (2, 3)]⟩) 2 = 2 ∧
    degree (graphOfResult ⟨[(1, 0, 0), (2, 3, 0), (3, 3, 4)], [(1, 2), (2, 3)]⟩) 3 = 1 ∧
    roadRows [(1, 0, 0), (2, 3, 0), (3, 3, 4)] [(1, 2), (2, 3)] =
      .ok [(1, 2, 300), (2, 3, 400)] ∧
    degreeHistogram (graphOfResult ⟨[(1, 0, 0), (2, 3, 0), (3, 3, 4)], [(1, 2), (2, 3)]⟩) =
      [(1, 2), (2, 1)] ∧
    avg_degree (ParseResult.mk [(1, 0, 0), (2, 3, 0), (3, 3, 4)] [(1, 2), (2, 3)]).edges.length
        (ParseResult.mk [(1, 0, 0), (2, 3, 0), (3, 3, 4)] [(1, 2), (2, 3)]).vertices.length
      = some 133 := by
  refine ⟨by decide, by decide, by decide, by decide, by decide, by decide, by decide⟩

/-! ## Claim C6 — empty-graph statistics -/

/-- Claim C6 (corrected): with zero nodes the dashboard's summary
statistics fail rather than return sentinels — the average-degree division
raises `ZeroDivisionError`, and the dominant-category percent and maximum
degree are computed from empty query results whose data-frame column access
raises `KeyError` (all modelled by `none`); the run aborts.  (The original
claim required a defined sentinel value instead of a fault.) -/
theorem zero_nodes_stats_fault (e : Nat) :
    avg_degree e 0 = none ∧
    most_common_pct ⟨[], []⟩ = none ∧
    maxDegreeStat ⟨[], []⟩ = none :=
  ⟨rfl, rfl, rfl⟩

/-- Counterexample to claim C6 as stated: at zero nodes (and, say, 7 edges)
none of the three statistics produces a defined value — each computation
faults, yielding no sentinel. -/
theorem zero_nodes_no_sentinel :
    avg_degree 7 0 = none ∧
    most_common_pct ⟨[], []⟩ = none ∧
    maxDegreeStat ⟨[], []⟩ = none ∧
    avg_degree 7 0 ≠ some 0 := by
  refine ⟨rfl, rfl, rfl, fun h => Option.noConfusion h⟩

/-! ## Claim C7 — ranking limit behaviour -/

/-- Claim C7 (corrected): the source query fixes K at 10 (`LIMIT 10`);
exposing the limit as a parameter, a negative K is rejected with an
invalid-argument error but K = 0 succeeds with an empty result — so
"fails whenever K ≤ 0" does not hold — and when the graph has fewer than
K = 10 nodes the query returns exactly all of them, with no padding and no
error.  (See `topK_zero_no_error` for the K = 0 counterexample.) -/
theorem topK_limit_behavior (g : Graph) (k : Int) :
    (k < 0 → topK k g = .error .invalidLimit) ∧
    topK 0 g = .ok [] ∧
    (g.nodes.length ≤ 10 → ∃ l, top10 g = .ok l ∧ l.length = g.nodes.length) := by
  refine ⟨fun hk => ?_, ?_, fun hn => ?_⟩
  · simp [topK, hk]
  · simp [topK]
  · refine ⟨(List.insertionSort (fun a b : Int × Nat => b.2 ≤ a.2)
      (nodeDegreePairs g)).take ((10 : Int).toNat), ?_, ?_⟩
    · simp [top10, topK]
    · rw [List.length_take]
      have hsl : (List.insertionSort (fun a b : Int × Nat => b.2 ≤ a.2)
          (nodeDegreePairs g)).length = g.nodes.length := by
        rw [(List.perm_insertionSort _ _).length_eq]
        simp [nodeDegreePairs]
      rw [hsl]
      omega

/-- Concrete instance of `topK_limit_behavior`: K = -1 errors on the
one-node graph, and `LIMIT 10` on it returns its single node. -/
theorem topK_limit_behavior_witness :
    topK (-1) ⟨[1], []⟩ = .error .invalidLimit ∧
    (∃ l, top10 ⟨[1], []⟩ = .ok l ∧ l.length = (Graph.mk [1] []).nodes.length) :=
  ⟨(topK_limit_behavior ⟨[1], []⟩ (-1)).1 (by decide),
   (topK_limit_behavior ⟨[1], []⟩ (-1)).2.2 (by decide)⟩

/-- Counterexample to claim C7 as stated: called with K = 0 the ranking
query does not fail with an invalid-argument error — it returns an empty
row set. -/
theorem topK_zero_no_error :
    topK 0 ⟨[1], []⟩ = .ok [] ∧
    topK 0 (Graph.mk [1] []) ≠ .error .invalidLimit := by
  refine ⟨by decide, fun h => ?_⟩
  rw [show topK 0 (Graph.mk [1] []) = .ok [] from by decide] at h
  exact Except.noConfusion h

/-! ## Claim C8 — malformed input detection -/

lemma pyIndex_some {α : Type} {l : List α} {i : Nat} {a : α} (h : l.get? i = some a) :
    pyIndex l i = .ok a := by
  unfold pyIndex
  rw [h]

lemma pyIndex_none {α : Type} {l : List α} {i : Nat} (h : l.get? i = none) :
    pyIndex l i = .error .indexError := by
  unfold pyIndex
  rw [h]

lemma pyIndex_ok {α : Type} {l : List α} {i : Nat} {a : α} :
    pyIndex l i = .ok a ↔ l.get? i = some a := by
  unfold pyIndex
  cases h : l.get? i <;> simp

lemma readVertexRecords_short (lines : List String) :
    ∀ n i, 1 ≤ n → lines.length < i + n →
      ∃ e, readVertexRecords lines i n = .error e := by
  intro n
  induction n with
  | zero => intro i h1 _; omega
  | succ m ih =>
    intro i _ h2
    by_cases hi : i < lines.length
    · cases hget : lines.get? i with
      | none =>
        have : lines.length ≤ i := List.get?_eq_none.mp hget
        omega
      | some l =>
        have hm1 : 1 ≤ m := by omega
        cases hpl : parseVertexLine l with
        | error e =>
          exact ⟨e, by simp [readVertexRecords, pyIndex_some hget, hpl]⟩
        | ok r =>
          obtain ⟨e, he⟩ := ih (i + 1) hm1 (by omega)
          exact ⟨e, by simp [readVertexRecords, pyIndex_some hget, hpl, he]⟩
    · have hget : lines.get? i = none := List.get?_eq_none.mpr (by omega)
      exact ⟨.indexError, by simp [readVertexRecords, pyIndex_none hget]⟩

lemma readVertexRecords_ok (lines : List String) :
    ∀ n i rs, readVertexRecords lines i n = .ok rs →
      ∀ j, j < n → ∃ l v, lines.get? (i + j) = some l ∧ parseVertexLine l = .ok v := by
  intro n
  induction n with
  | zero => intro i rs _ j hj; omega
  | succ m ih =>
    intro i rs h j hj
    rw [readVertexRecords] at h
    cases hpi : pyIndex lines i with
    | error e =>
      simp only [hpi] at h
      exact Except.noConfusion h
    | ok l =>
      simp only [hpi] at h
      cases hpl : parseVertexLine l with
      | error e =>
        simp only [hpl] at h
        exact Except.noConfusion h
      | ok r =>
        simp only [hpl] at h
        cases hrec : readVertexRecords lines (i + 1) m with
        | error e =>
          simp only [hrec] at h
          exact Except.noConfusion h
        | ok rs' =>
          match j with
          | 0 =>
            refine ⟨l, r, ?_, hpl⟩
            simpa using pyIndex_ok.mp hpi
          | j' + 1 =>
            obtain ⟨l', v, hget', hpl'⟩ := ih (i + 1) rs' hrec j' (by omega)
            refine ⟨l', v, ?_, hpl'⟩
            rw [show i + (j' + 1) = i + 1 + j' by omega]
            exact hget'

/-- Claim C8 (corrected): a vertex section shorter than the header's node
count aborts the load with an error, and a successful load certifies that
every vertex record in the declared range was present and parsed as three
integers — too-few-field or non-integer vertex records therefore abort the
load, and an error hands no graph downstream (the CSV exports run only
after parsing finishes).  (The original claim also required detection of a
header edge count disagreeing with the number of edge lines and of
too-short edge records; the code never validates the edge count and skips
short edge lines silently — see `edge_count_mismatch_not_detected`.) -/
theorem parse_aborts_on_vertex_section_errors (lines : List String) (nv ne : Int)
    (hh : parseHeader lines = .ok (nv, ne)) :
    (lines.length < nv.toNat + 1 → ∃ e, parse_data lines = .error e) ∧
    (∀ pr, parse_data lines = .ok pr → ∀ j, j < nv.toNat →
      ∃ l v, lines.get? (1 + j) = some l ∧ parseVertexLine l = .ok v) := by
  constructor
  · intro hshort
    have hne : lines ≠ [] := by
      intro h0
      rw [h0] at hh
      simp [parseHeader] at hh
    have hpos : 1 ≤ lines.length := List.length_pos.mpr hne
    have h1 : 1 ≤ nv.toNat := by omega
    obtain ⟨e, he⟩ := readVertexRecords_short lines nv.toNat 1 h1 (by omega)
    exact ⟨e, by simp [parse_data, hh, he]⟩
  · intro pr hok j hj
    cases hv : readVertexRecords lines 1 nv.toNat with
    | error e =>
      rw [parse_data] at hok
      simp only [hh, hv] at hok
      exact Except.noConfusion hok
    | ok rs =>
      exact readVertexRecords_ok lines nv.toNat 1 rs hv j hj

/-- Concrete instance of `parse_aborts_on_vertex_section_errors`: the input
whose header promises 2 vertices but provides none aborts. -/
theorem parse_aborts_on_vertex_section_errors_witness :
    ∃ e, parse_data ["2 0"] = .error e :=
  (parse_aborts_on_vertex_section_errors ["2 0"] 2 0 (by decide)).1 (by decide)

/-- Counterexample to claim C8 as stated: the header of this input declares
9 edges but only one edge line follows; the load succeeds anyway — the
header's edge count is never checked, so the mismatch is not detected and
no abort happens. -/
theorem edge_count_mismatch_not_detected :
    parseHeader ["2 9", "1 0 0", "2 1 1", "1 2"] = .ok (2, 9) ∧
    parse_data ["2 9", "1 0 0", "2 1 1", "1 2"] =
      .ok ⟨[(1, 0, 0), (2, 1, 1)], [(1, 2)]⟩ ∧
    (ParseResult.mk [(1, 0, 0), (2, 1, 1)] [(1, 2)]).edges.length ≠ (9 : Int).toNat := by
  refine ⟨by decide, by decide, by decide⟩

/-! ## Claim C9 — duplicate vertex ids -/

lemma find?_cons_true {α : Type} (p : α → Bool) (a : α) (l : List α) (h : p a = true) :
    (a :: l).find? p = some a := by
  simp [List.find?, h]

lemma find?_cons_false {α : Type} (p : α → Bool) (a : α) (l : List α) (h : p a = false) :
    (a :: l).find? p = l.find? p := by
  simp [List.find?, h]

lemma insertVertex_find_self (vs : List (Int × Int × Int)) (a x y : Int) :
    findVert (insertVertex vs a x y) a = some (a, x, y) := by
  induction vs with
  | nil =>
    unfold insertVertex findVert
    exact find?_cons_true _ _ _ (by simp)
  | cons v vs ih =>
    by_cases hv : v.1 = a
    · have hT : (v.1 == a) = true := by simp [hv]
      unfold insertVertex
      rw [if_pos hT]
      exact find?_cons_true _ _ _ (by simp)
    · have hF : (v.1 == a) = false := by simp [hv]
      unfold insertVertex
      rw [if_neg (by simp [hF])]
      unfold findVert at ih ⊢
      rw [find?_cons_false (fun w : Int × Int × Int => w.1 == a) v (insertVertex vs a x y) hF]
      exact ih

lemma insertVertex_find_other (vs : List (Int × Int × Int)) (a x y b : Int)
    (hba : b ≠ a) :
    findVert (insertVertex vs a x y) b = findVert vs b := by
  have habF : (a == b) = false := by
    simp only [beq_eq_false_iff_ne, ne_eq]
    exact fun h => hba h.symm
  induction vs with
  | nil =>
    unfold insertVertex findVert
    rw [find?_cons_false (fun w : Int × Int × Int => w.1 == b) (a, x, y) [] habF]
  | cons v vs ih =>
    by_cases hv : v.1 = a
    · have hT : (v.1 == a) = true := by simp [hv]
      have hvb : ¬ v.1 = b := fun h => hba (hv.symm.trans h).symm
      have hvbF : (v.1 == b) = false := by simp [hvb]
      unfold insertVertex
      rw [if_pos hT]
      unfold findVert
      rw [find?_cons_false (fun w : Int × Int × Int => w.1 == b) (a, x, y) vs habF,
        find?_cons_false (fun w : Int × Int × Int => w.1 == b) v vs hvbF]
    · have hF : (v.1 == a) = false := by simp [hv]
      unfold insertVertex
      rw [if_neg (by simp [hF])]
      unfold findVert at ih ⊢
      by_cases hvb : v.1 = b
      · have hvbT : (v.1 == b) = true := by simp [hvb]
        rw [find?_cons_true (fun w : Int × Int × Int => w.1 == b) v (insertVertex vs a x y) hvbT,
          find?_cons_true (fun w : Int × Int × Int => w.1 == b) v vs hvbT]
      · have hvbF : (v.1 == b) = false := by simp [hvb]
        rw [find?_cons_false (fun w : Int × Int × Int => w.1 == b) v (insertVertex vs a x y) hvbF,
          find?_cons_false (fun w : Int × Int × Int => w.1 == b) v vs hvbF]
        exact ih

lemma insertVertex_keys_mem (vs : List (Int × Int × Int)) (a x y b : Int) :
    (b ∈ (insertVertex vs a x y).map (fun v => v.1))
      ↔ (b = a ∨ b ∈ vs.map (fun v => v.1)) := by
  induction vs with
  | nil => simp [insertVertex]
  | cons v vs ih =>
    by_cases hv : v.1 = a
    · have hT : (v.1 == a) = true := by simp [hv]
      unfold insertVertex
      rw [if_pos hT]
      simp only [List.map_cons, List.mem_cons, hv]
      tauto
    · have hF : (v.1 == a) = false := by simp [hv]
      unfold insertVertex
      rw [if_neg (by simp [hF])]
      simp only [List.map_cons, List.mem_cons, ih]
      tauto

lemma insertVertex_keys_nodup (vs : List (Int × Int × Int)) (a x y : Int)
    (h : (vs.map (fun v => v.1)).Nodup) :
    ((insertVertex vs a x y).map (fun v => v.1)).Nodup := by
  induction vs with
  | nil => simp [insertVertex]
  | cons v vs ih =>
    rw [List.map_cons, List.nodup_cons] at h
    by_cases hv : v.1 = a
    · have hT : (v.1 == a) = true := by simp [hv]
      unfold insertVertex
      rw [if_pos hT, List.map_cons, List.nodup_cons]
      exact ⟨hv ▸ h.1, h.2⟩
    · have hF : (v.1 == a) = false := by simp [hv]
      unfold insertVertex
      rw [if_neg (by simp [hF]), List.map_cons, List.nodup_cons]
      refine ⟨?_, ih h.2⟩
      rw [insertVertex_keys_mem]
      rintro (h1 | h1)
      · exact hv h1
      · exact h.1 h1

lemma buildVerts_append (rs : List (Int × Int × Int)) (r : Int × Int × Int) :
    buildVerts (rs ++ [r]) = insertVertex (buildVerts rs) r.1 r.2.1 r.2.2 := by
  simp [buildVerts, List.foldl_append]

lemma buildVerts_keys_nodup (rs : List (Int × Int × Int)) :
    ((buildVerts rs).map (fun v => v.1)).Nodup := by
  induction rs using List.reverseRecOn with
  | nil => simp [buildVerts]
  | append_singleton rs r ih =>
    rw [buildVerts_append]
    exact insertVertex_keys_nodup _ _ _ _ ih

lemma buildVerts_find (rs : List (Int × Int × Int)) (b : Int) :
    findVert (buildVerts rs) b = lastEntry rs b := by
  induction rs using List.reverseRecOn with
  | nil => simp [buildVerts, lastEntry, findVert, List.find?]
  | append_singleton rs r ih =>
    rw [buildVerts_append]
    by_cases hb : b = r.1
    · rw [hb, insertVertex_find_self]
      unfold lastEntry
      rw [List.filter_append]
      have hfr : [r].filter (fun v => v.1 == r.1) = [r] := by simp
      rw [hfr, List.getLast?_append_cons]
      simp
    · rw [insertVertex_find_other _ _ _ _ _ hb, ih]
      unfold lastEntry
      rw [List.filter_append]
      have hrb : ¬ r.1 = b := fun h => hb h.symm
      have hfr : [r].filter (fun v => v.1 == b) = [] := by simp [hrb]
      rw [hfr, List.append_nil]

/-- Claim C9 (confirmed): when the coordinate section repeats a node id,
the vertex dict keeps only the last `(x, y)` pair for that id (lookup in
the built table agrees with the last matching raw record), the exported
node table has pairwise distinct ids — one row per distinct id, so it can
have fewer rows than the header's node count — and no error is raised, as
the concrete run with header count 3 and a single id shows. -/
theorem duplicate_vertex_ids_last_wins :
    (∀ rs : List (Int × Int × Int),
      ((buildVerts rs).map (fun v => v.1)).Nodup ∧
      (∀ b, findVert (buildVerts rs) b = lastEntry rs b)) ∧
    parse_data ["3 0", "1 0 0", "1 5 6", "1 7 8"] = .ok ⟨[(1, 7, 8)], []⟩ := by
  refine ⟨fun rs => ⟨buildVerts_keys_nodup rs, fun b => buildVerts_find rs b⟩, by decide⟩

/-! ## Claim C10 — edge rows -/

lemma pyInt_ok {s : String} {n : Int} : pyInt s = .ok n ↔ strToInt? s = some n := by
  unfold pyInt
  cases h : strToInt? s <;> simp

lemma parseEdgeLine_cases (l : String) (o : Option (Int × Int))
    (h : parseEdgeLine l = .ok o) :
    (2 ≤ (pySplit l).length ∧ o = some (keptEdgeOf l)) ∨
    ((pySplit l).length < 2 ∧ o = none) := by
  by_cases hlen : 2 ≤ (pySplit l).length
  · left
    refine ⟨hlen, ?_⟩
    simp only [parseEdgeLine] at h
    rw [if_pos hlen] at h
    cases hp0 : pyIndex (pySplit l) 0 with
    | error e => simp only [hp0] at h; exact Except.noConfusion h
    | ok s0 =>
      simp only [hp0] at h
      cases hi0 : pyInt s0 with
      | error e => simp only [hi0] at h; exact Except.noConfusion h
      | ok src =>
        simp only [hi0] at h
        cases hp1 : pyIndex (pySplit l) 1 with
        | error e => simp only [hp1] at h; exact Except.noConfusion h
        | ok s1 =>
          simp only [hp1] at h
          cases hi1 : pyInt s1 with
          | error e => simp only [hi1] at h; exact Except.noConfusion h
          | ok tgt =>
            simp only [hi1] at h
            rw [← Except.ok.inj h]
            unfold keptEdgeOf
            rw [pyIndex_ok.mp hp0, pyIndex_ok.mp hp1]
            simp only [Option.getD_some]
            rw [pyInt_ok.mp hi0, pyInt_ok.mp hi1]
            rfl
  · right
    refine ⟨by omega, ?_⟩
    simp only [parseEdgeLine] at h
    rw [if_neg hlen] at h
    exact (Except.ok.inj h).symm

lemma readEdges_eq (ls : List String) :
    ∀ es, readEdges ls = .ok es →
      es = (ls.filter (fun l => 2 ≤ (pySplit l).length)).map keptEdgeOf := by
  induction ls with
  | nil =>
    intro es h
    rw [readEdges] at h
    rw [← Except.ok.inj h]
    rfl
  | cons l ls ih =>
    intro es h
    rw [readEdges] at h
    cases hel : parseEdgeLine l with
    | error e => simp only [hel] at h; exact Except.noConfusion h
    | ok o =>
      simp only [hel] at h
      cases hrest : readEdges ls with
      | error e => simp only [hrest] at h; exact Except.noConfusion h
      | ok rest =>
        simp only [hrest] at h
        rcases parseEdgeLine_cases l o hel with ⟨hlen, ho⟩ | ⟨hlen, ho⟩
        · subst ho
          have hfil : (l :: ls).filter (fun l => 2 ≤ (pySplit l).length)
              = l :: ls.filter (fun l => 2 ≤ (pySplit l).length) := by
            rw [List.filter_cons, if_pos (by simpa using hlen)]
          rw [hfil, List.map_cons, ← ih rest hrest]
          exact (Except.ok.inj h).symm
        · subst ho
          have hfil : (l :: ls).filter (fun l => 2 ≤ (pySplit l).length)
              = ls.filter (fun l => 2 ≤ (pySplit l).length) := by
            rw [List.filter_cons, if_neg (by simp; omega)]
          rw [hfil, ← ih rest hrest]
          exact (Except.ok.inj h).symm

lemma roadRows_pairs (vs : List (Int × Int × Int)) :
    ∀ es rows, roadRows vs es = .ok rows →
      rows.map (fun r => (r.1, r.2.1)) = es := by
  intro es
  induction es with
  | nil =>
    intro rows h
    rw [roadRows] at h
    rw [← Except.ok.inj h]
    rfl
  | cons p es ih =>
    intro rows h
    obtain ⟨s, t⟩ := p
    rw [roadRows] at h
    cases h1 : pyLookup vs s with
    | error e => simp only [h1] at h; exact Except.noConfusion h
    | ok p1 =>
      simp only [h1] at h
      cases h2 : pyLookup vs t with
      | error e => simp only [h2] at h; exact Except.noConfusion h
      | ok p2 =>
        simp only [h2] at h
        cases h3 : roadRows vs es with
        | error e => simp only [h3] at h; exact Except.noConfusion h
        | ok rest =>
          simp only [h3] at h
          rw [← Except.ok.inj h, List.map_cons, ih rest h3]

/-- Claim C10 (confirmed): a successful load turns exactly the post-header
lines with at least two fields into edges — in input-line order, with the
written `(source, target)` orientation and with duplicate pairs kept — and
the exported edge table has one row per such edge in the same order and
orientation; no de-duplication or normalization of the unordered pair
occurs (witnessed by the duplicated edge `1 2` surviving twice). -/
theorem edge_rows_preserve_lines :
    (∀ ls es, readEdges ls = .ok es →
      es = (ls.filter (fun l => 2 ≤ (pySplit l).length)).map keptEdgeOf) ∧
    (∀ vs es rows, roadRows vs es = .ok rows →
      rows.map (fun r => (r.1, r.2.1)) = es) :=
  ⟨fun ls es h => readEdges_eq ls es h,
   fun vs es rows h => roadRows_pairs vs es rows h⟩

/-- Concrete instance of `edge_rows_preserve_lines`: the edge section
`1 2 / 1 2 / x / 2 1 9` yields the duplicate-preserving, order-preserving
edges (1,2), (1,2), (2,1) — the one-field line is skipped, the trailing
field ignored — and a roads row maps back to its `(source, target)`. -/
theorem edge_rows_preserve_lines_witness :
    ([((1 : Int), (2 : Int)), (1, 2), (2, 1)]
        = ((["1 2", "1 2", "x", "2 1 9"].filter
            (fun l => 2 ≤ (pySplit l).length)).map keptEdgeOf)) ∧
    ([((1 : Int), (2 : Int), (300 : Nat))].map (fun r => (r.1, r.2.1))
        = [((1 : Int), (2 : Int))]) :=
  ⟨edge_rows_preserve_lines.1 ["1 2", "1 2", "x", "2 1 9"]
      [(1, 2), (1, 2), (2, 1)] (by decide),
   edge_rows_preserve_lines.2 [(1, 0, 0), (2, 3, 0)] [(1, 2)] [(1, 2, 300)] (by decide)⟩

end RoadNet
